import Mathlib

/-!
Verification of the multi-framework orchestration core
(`plugins/base/orchestrator.py`, `plugins/base/plugin_interface.py`,
`plugins/base/event_mapper.py`).

The Python code is embedded shallowly:
* `PluginEvent` / `UIEvent` mirror the pydantic models; every payload the
  orchestrator constructs maps string keys to string values, so payloads are
  association lists of strings;
* the nondeterministic `datetime.now().isoformat()` is passed in explicitly
  as a `now : String` argument;
* the per-unit runner `_execute_framework_with_error_handling` is a function
  of the underlying plugin's produce outcome (`ProduceResult`) and of the
  point at which a stop request takes effect (`StopSignal`);
* the fan-in of `_stream_from_multiple_tasks` is a queue interleaving of the
  feeder streams, parameterised by an arrival schedule;
* orchestrator lifecycle state (`plugins`, `active_tasks`,
  `stopped_frameworks`) is an explicit record, with Python `dict` modelled as
  an insertion-ordered association list and Python `set` as a duplicate-free
  list.
-/

/-- Payload dictionary: every payload built by the orchestrator
(orchestrator.py lines 139-174, 186-198, 238-243) maps string keys to
string values. -/
abbrev Payload := List (String × String)

/-- First-match lookup in an insertion-ordered dictionary (Python `d[k]` /
`d.get(k)` read on a dict with unique keys). -/
def dictGet {α : Type} : List (String × α) → String → Option α
  | [], _ => none
  | p :: rest, k => if p.1 = k then some p.2 else dictGet rest k

/-- Python `d[k] = v`: replace the value in place if the key is present,
otherwise append at the end (insertion order). -/
def dictInsert {α : Type} : List (String × α) → String → α → List (String × α)
  | [], k, v => [(k, v)]
  | p :: rest, k, v => if p.1 = k then (k, v) :: rest else p :: dictInsert rest k v

/-- Python `del d[k]` on a dict with unique keys: drop the entry. -/
def dictErase {α : Type} : List (String × α) → String → List (String × α)
  | [], _ => []
  | p :: rest, k => if p.1 = k then rest else p :: dictErase rest k

/-- Key list of a dictionary (Python `d.keys()`, insertion order). -/
def dictKeys {α : Type} (d : List (String × α)) : List String :=
  d.map Prod.fst

/-- Python `s.add(k)` on a set modelled as a duplicate-free list. -/
def setAdd (s : List String) (k : String) : List String :=
  if k ∈ s then s else s ++ [k]

/-- Python `s.remove(k)` / discard on a set modelled as a list. -/
def setRemove : List String → String → List String
  | [], _ => []
  | x :: rest, k => if x = k then setRemove rest k else x :: setRemove rest k

/-- `PluginEvent` (plugin_interface.py lines 10-16): the event envelope every
framework plugin emits. `framework` is the unit name, `type` the kind
(`streaming` / `complete` / `error` / `stopped`), `component` the
granularity. -/
structure PluginEvent where
  framework : String
  type : String
  component : String
  data : Payload
  timestamp : String
deriving DecidableEq

/-- `create_plugin_event` (event_mapper.py lines 29-52); the
`datetime.now().isoformat()` timestamp is the explicit `now` argument. -/
def create_plugin_event (framework event_type component : String)
    (data : Payload) (now : String) : PluginEvent :=
  { framework := framework, type := event_type, component := component,
    data := data, timestamp := now }

/-- The data dictionary built by `map_plugin_event_to_ui_event`
(event_mapper.py lines 16-26). -/
structure UIEventData where
  framework : String
  agent_key : String
  stream_event : Payload
  timestamp : String
  component : String
  event_type : String
deriving DecidableEq

/-- `UIEvent` as constructed by the orchestrator: always
`type="multi_agent_analysis"` with the `UIEventData` payload. -/
structure UIEvent where
  type : String
  data : UIEventData
deriving DecidableEq

/-- `map_plugin_event_to_ui_event` (event_mapper.py lines 10-26). -/
def map_plugin_event_to_ui_event (e : PluginEvent) : UIEvent :=
  { type := "multi_agent_analysis",
    data := { framework := e.framework,
              agent_key := e.framework ++ "_" ++ e.component,
              stream_event := e.data,
              timestamp := e.timestamp,
              component := e.component,
              event_type := e.type } }

/-- A fault raised by a unit's `produce`: either a `PluginError`
(plugin_interface.py lines 68-74, carrying framework, message and optional
component) or any other Python `Exception`. `asyncio.CancelledError` is not
an `Exception` and is modelled separately as a stop signal. -/
inductive PluginFault where
  | pluginError (framework message : String) (component : Option String)
  | unexpected (message : String)
deriving DecidableEq

/-- `str(e)` for a fault: `PluginError.__init__` passes
`f-string framework: message` to `Exception` (plugin_interface.py line 74). -/
def faultMessage : PluginFault → String
  | .pluginError fw msg _ => fw ++ ": " ++ msg
  | .unexpected msg => msg

/-- Outcome of one call to a plugin's `execute_component`: the sequence of
events it yields, ending either by normal exhaustion or by raising a
fault. -/
inductive ProduceResult where
  | ends (events : List PluginEvent)
  | fails (events : List PluginEvent) (fault : PluginFault)
deriving DecidableEq

/-- The events a produce outcome yields before terminating. -/
def produceEvents : ProduceResult → List PluginEvent
  | .ends evs => evs
  | .fails evs _ => evs

/-- When (if ever) a `stop_framework` request takes effect inside the
runner loop: `checkedAt k` means the `framework in self.stopped_frameworks`
check (orchestrator.py line 138) first sees the stop after pulling event
number `k`; `cancelledAt k` means `task.cancel()` delivers
`asyncio.CancelledError` at the runner's suspension point after `k` events
were pulled and yielded (orchestrator.py line 147). -/
inductive StopSignal where
  | none
  | checkedAt (k : Nat)
  | cancelledAt (k : Nat)
deriving DecidableEq

/-- The `stopped` envelope yielded on the stopped-set check
(orchestrator.py lines 139-142). -/
def stoppedByUserEvent (framework component now : String) : PluginEvent :=
  create_plugin_event framework "stopped" component
    [("message", framework ++ " framework stopped by user")] now

/-- The `stopped` envelope yielded on `asyncio.CancelledError`
(orchestrator.py lines 149-152). -/
def stoppedCancelledEvent (framework component now : String) : PluginEvent :=
  create_plugin_event framework "stopped" component
    [("message", framework ++ " framework stopped")] now

/-- The `error` envelope synthesized for a caught fault
(orchestrator.py lines 154-174): `PluginError` is tagged
`error_type=plugin_error` and carries `e.component or component`; any other
exception is tagged `error_type=unexpected_error`. -/
def faultEvent (framework component : String) (fault : PluginFault)
    (now : String) : PluginEvent :=
  match fault with
  | .pluginError fw msg comp =>
      create_plugin_event framework "error" component
        [("error", fw ++ ": " ++ msg), ("error_type", "plugin_error"),
         ("component", comp.getD component)] now
  | .unexpected msg =>
      create_plugin_event framework "error" component
        [("error", msg), ("error_type", "unexpected_error"),
         ("framework", framework)] now

/-- The per-unit runner `_execute_framework_with_error_handling`
(orchestrator.py lines 123-174) as a function of the plugin's produce
outcome and the stop signal. The loop pulls each event, checks the
stopped-set, and yields the event; after normal exhaustion of the plugin's
sequence the loop simply returns (no check and no synthesized envelope);
a fault raised by the pull is converted by the `except` clauses; a
cancellation delivered at a suspension point yields the `stopped`
envelope. -/
def execute_framework_with_error_handling (framework component : String)
    (res : ProduceResult) (stop : StopSignal) (now : String) :
    List PluginEvent :=
  match stop with
  | .checkedAt k =>
      if k < (produceEvents res).length then
        (produceEvents res).take k ++ [stoppedByUserEvent framework component now]
      else
        match res with
        | .ends evs => evs
        | .fails evs fault => evs ++ [faultEvent framework component fault now]
  | .cancelledAt k =>
      (produceEvents res).take k ++ [stoppedCancelledEvent framework component now]
  | .none =>
      match res with
      | .ends evs => evs
      | .fails evs fault => evs ++ [faultEvent framework component fault now]

/-- `feed_queue` (orchestrator.py lines 186-198): forwards every runner
event into the shared queue tagged with the framework name, and finally
enqueues the `None` completion marker. The `except Exception` branch
(lines 190-196) is unreachable in this model because the runner converts
every fault into an envelope. -/
def feed_queue (framework component : String) (res : ProduceResult)
    (stop : StopSignal) (now : String) : List (String × Option PluginEvent) :=
  (execute_framework_with_error_handling framework component res stop now).map
    (fun e => (framework, some e)) ++ [(framework, Option.none)]

/-- Terminal envelope test (spec terminology: kind `complete`, `error` or
`stopped`). -/
def isTerminal (e : PluginEvent) : Bool :=
  e.type == "complete" || e.type == "error" || e.type == "stopped"

/-- Terminal test on a forwarded UI event (`event_type` carries the
envelope kind through `map_plugin_event_to_ui_event`). -/
def isTerminalUI (u : UIEvent) : Bool :=
  u.data.event_type == "complete" || u.data.event_type == "error" ||
    u.data.event_type == "stopped"

/-- One runner task in a session: its framework name, the granularity
passed by `execute_workflow`, its produce outcome, the stop signal it
receives, and its timestamp source. -/
structure RunnerSpec where
  framework : String
  component : String
  res : ProduceResult
  stop : StopSignal
  now : String
deriving DecidableEq

/-- The queue items contributed by one feeder task. -/
def runnerFeed (r : RunnerSpec) : List (String × Option PluginEvent) :=
  feed_queue r.framework r.component r.res r.stop r.now

/-- Arrival order at the shared `event_queue` (orchestrator.py line 183):
each schedule entry names a feeder; if that feeder still has pending items
its next item arrives, otherwise the entry is skipped. The schedule is the
timing nondeterminism of the concurrent feeders. -/
def interleave {β : Type} : List (List β) → List Nat → List β
  | _, [] => []
  | streams, i :: rest =>
    match streams[i]? with
    | some (x :: xs) => x :: interleave (streams.set i xs) rest
    | some [] => interleave streams rest
    | Option.none => interleave streams rest

/-- Residual feeder contents after running a schedule. -/
def runSched {β : Type} : List (List β) → List Nat → List (List β)
  | streams, [] => streams
  | streams, i :: rest =>
    match streams[i]? with
    | some (_ :: xs) => runSched (streams.set i xs) rest
    | some [] => runSched streams rest
    | Option.none => runSched streams rest

/-- A schedule drains the feeders when nothing remains pending. -/
def drains {β : Type} (streams : List (List β)) (sched : List Nat) : Prop :=
  ∀ l ∈ runSched streams sched, l = []

/-- The consumer loop of `_stream_from_multiple_tasks`
(orchestrator.py lines 206-231): a `None` item marks its framework
completed and yields nothing, every other item is converted with
`map_plugin_event_to_ui_event` and yielded; the timeout branch yields
nothing. -/
def consumeQueue (items : List (String × Option PluginEvent)) : List UIEvent :=
  items.filterMap (fun p => p.2.map map_plugin_event_to_ui_event)

/-- `_stream_from_multiple_tasks` (orchestrator.py lines 176-236): the
merged UI-event stream for one session, given the arrival schedule. -/
def stream_from_multiple_tasks (rs : List RunnerSpec) (sched : List Nat) :
    List UIEvent :=
  consumeQueue (interleave (rs.map runnerFeed) sched)

/-- The sub-stream of the merged output belonging to one unit name. -/
def eventsFor (f : String) (out : List UIEvent) : List UIEvent :=
  out.filter (fun u => u.data.framework == f)

/-- Orchestrator lifecycle state (orchestrator.py lines 17-20): the plugin
registry, the active task map (each task with its `done()` flag), and the
stopped-set. `α` is the registered plugin object type. -/
structure OrchState (α : Type) where
  plugins : List (String × α)
  active_tasks : List (String × Bool)
  stopped_frameworks : List String
deriving DecidableEq

/-- `register_plugin` (orchestrator.py lines 22-29): unconditional dict
assignment. -/
def register_plugin {α : Type} (s : OrchState α) (framework : String)
    (plugin : α) : OrchState α :=
  { s with plugins := dictInsert s.plugins framework plugin }

/-- `get_available_frameworks` (orchestrator.py lines 31-33). -/
def get_available_frameworks {α : Type} (s : OrchState α) : List String :=
  dictKeys s.plugins

/-- State effect of `stop_framework` (orchestrator.py lines 39-55): add the
name to the stopped-set; if it has an active task, cancel it, await it and
delete the entry. The cancellation's effect on the event stream is the
`StopSignal` of the runner. -/
def stop_framework {α : Type} (s : OrchState α) (framework : String) :
    OrchState α :=
  { s with stopped_frameworks := setAdd s.stopped_frameworks framework,
           active_tasks := dictErase s.active_tasks framework }

/-- `restart_framework` (orchestrator.py lines 57-64): remove the name from
the stopped-set if present, otherwise do nothing. -/
def restart_framework {α : Type} (s : OrchState α) (framework : String) :
    OrchState α :=
  if framework ∈ s.stopped_frameworks then
    { s with stopped_frameworks := setRemove s.stopped_frameworks framework }
  else s

/-- The status value computed for one framework inside the loop of
`get_framework_status` (orchestrator.py lines 253-263). -/
def statusOf {α : Type} (s : OrchState α) (f : String) : String :=
  if f ∈ s.stopped_frameworks then "stopped"
  else
    match dictGet s.active_tasks f with
    | some true => "completed"
    | some false => "running"
    | Option.none => "ready"

/-- `get_framework_status` (orchestrator.py lines 246-265): iterates over
the registered plugins and computes each status. -/
def get_framework_status {α : Type} (s : OrchState α) :
    List (String × String) :=
  s.plugins.map (fun p => (p.1, statusOf s p.1))

/-- First-occurrence deduplication, modelling iteration over the Python set
`set(selected_frameworks) - available_frameworks` (orchestrator.py line 91;
CPython set iteration order is unspecified, a deterministic representative
is used). -/
def dedupFirst : List String → List String :=
  List.foldl (fun acc x => if x ∈ acc then acc else acc ++ [x]) []

/-- The invalid-selection set of `execute_workflow`
(orchestrator.py lines 90-91): selected names missing from the registry. -/
def invalid_frameworks {α : Type} (s : OrchState α)
    (selected : List String) : List String :=
  dedupFirst (selected.filter (fun f => f ∉ dictKeys s.plugins))

/-- `_create_error_event` (orchestrator.py lines 238-244). -/
def create_error_event (framework message now : String) : UIEvent :=
  map_plugin_event_to_ui_event
    (create_plugin_event framework "error" "orchestrator"
      [("error", message), ("timestamp", now)] now)

/-- Result of the synchronous prefix of `execute_workflow`
(orchestrator.py lines 86-112): the events yielded during validation, the
runner tasks created (one per loop iteration, in order), and the state
after clearing the stopped-set and starting the tasks. -/
structure SpawnResult (α : Type) where
  emitted : List UIEvent
  framework_tasks : List String
  state : OrchState α
deriving DecidableEq

/-- The validation-and-spawn prefix of `execute_workflow`
(orchestrator.py lines 86-112): clear the stopped-set; if any selected name
is unregistered, yield a single error event listing the invalid names and
return; otherwise create one runner task per selected name (the
`if framework in self.plugins` guard is kept) and record each in
`active_tasks` (tasks are not yet done). -/
def execute_workflow_spawn {α : Type} (s : OrchState α)
    (selected : List String) (now : String) : SpawnResult α :=
  let s1 : OrchState α := { s with stopped_frameworks := [] }
  let invalid := invalid_frameworks s selected
  if invalid.isEmpty then
    let started := selected.filter (fun f => f ∈ dictKeys s1.plugins)
    { emitted := [],
      framework_tasks := started,
      state := { s1 with
        active_tasks := started.foldl (fun d f => dictInsert d f false)
          s1.active_tasks } }
  else
    { emitted := [create_error_event "orchestrator"
        ("Invalid frameworks: " ++ String.intercalate ", " invalid) now],
      framework_tasks := [],
      state := s1 }

/-- The full event stream yielded by one `execute_workflow` call
(orchestrator.py lines 66-121): the validation events followed by the
merged stream of the started runners. `behav` gives each plugin's produce
outcome, `stops` each runner's stop signal, `sched` the queue arrival
order. -/
def execute_workflow_output {α : Type} (s : OrchState α)
    (selected : List String) (now : String)
    (behav : String → ProduceResult) (stops : String → StopSignal)
    (component : String) (sched : List Nat) : List UIEvent :=
  let sp := execute_workflow_spawn s selected now
  sp.emitted ++ stream_from_multiple_tasks
    (sp.framework_tasks.map (fun f =>
      { framework := f, component := component, res := behav f,
        stop := stops f, now := now })) sched

section HelperLemmas

lemma dictGet_insert_self {α : Type} (d : List (String × α)) (k : String)
    (v : α) : dictGet (dictInsert d k v) k = some v := by
  induction d with
  | nil => simp [dictInsert, dictGet]
  | cons p rest ih =>
    by_cases h : p.1 = k
    · simp [dictInsert, h, dictGet]
    · simp [dictInsert, h, dictGet, ih]

lemma dictGet_insert_ne {α : Type} (d : List (String × α)) (k g : String)
    (v : α) (hgk : g ≠ k) : dictGet (dictInsert d k v) g = dictGet d g := by
  induction d with
  | nil => simp [dictInsert, dictGet, Ne.symm hgk]
  | cons p rest ih =>
    by_cases h : p.1 = k
    · have hpg : p.1 ≠ g := by rw [h]; exact Ne.symm hgk
      simp [dictInsert, h, dictGet, Ne.symm hgk, hpg]
    · by_cases hpg : p.1 = g
      · simp [dictInsert, h, dictGet, hpg, hgk]
      · simp [dictInsert, h, dictGet, hpg, ih]

lemma dictKeys_insert_mem {α : Type} :
    ∀ (d : List (String × α)) (k : String) (v : α), k ∈ dictKeys d →
      dictKeys (dictInsert d k v) = dictKeys d := by
  intro d
  induction d with
  | nil => intro k v hmem; simp [dictKeys] at hmem
  | cons p rest ih =>
    intro k v hmem
    by_cases h : p.1 = k
    · simp [dictInsert, h, dictKeys]
    · have hk : k ∈ dictKeys rest := by
        rcases List.mem_cons.mp
            (show k ∈ p.1 :: dictKeys rest by simpa [dictKeys] using hmem)
          with h1 | h1
        · exact absurd h1.symm h
        · exact h1
      have hrec := ih k v hk
      simp only [dictKeys] at hrec
      simp [dictInsert, h, dictKeys, hrec]

lemma setRemove_of_not_mem (l : List String) (k : String) (h : k ∉ l) :
    setRemove l k = l := by
  induction l with
  | nil => rfl
  | cons x rest ih =>
    have hx : x ≠ k := by
      intro hxk; exact h (by simp [hxk])
    have hk : k ∉ rest := fun hk => h (List.mem_cons_of_mem _ hk)
    simp [setRemove, hx, ih hk]

lemma dictGet_map_key {γ α : Type} (g : String → α) (f : String) :
    ∀ (d : List (String × γ)),
      dictGet (d.map (fun p => (p.1, g p.1))) f =
        if f ∈ dictKeys d then some (g f) else none := by
  intro d
  induction d with
  | nil => simp [dictGet, dictKeys]
  | cons p rest ih =>
    by_cases h : p.1 = f
    · simp [dictGet, dictKeys, h]
    · have hne : f ≠ p.1 := Ne.symm h
      simp only [List.map_cons, dictGet, dictKeys, if_neg h] at *
      rw [ih]
      by_cases hf : f ∈ List.map Prod.fst rest
      · rw [if_pos hf, if_pos (by simp [List.mem_cons, hf])]
      · rw [if_neg hf, if_neg (by simp [List.mem_cons, hne, hf])]

lemma dictGet_status {α : Type} (s : OrchState α) (f : String) :
    dictGet (get_framework_status s) f =
      if f ∈ dictKeys s.plugins then some (statusOf s f) else none := by
  simpa [get_framework_status] using
    dictGet_map_key (statusOf s) f s.plugins

lemma dictKeys_status {α : Type} (s : OrchState α) :
    dictKeys (get_framework_status s) = dictKeys s.plugins := by
  simp [get_framework_status, dictKeys, List.map_map, Function.comp]

lemma mem_foldl_dedup (a : String) :
    ∀ (l acc : List String),
      a ∈ List.foldl (fun acc x => if x ∈ acc then acc else acc ++ [x]) acc l
        ↔ a ∈ acc ∨ a ∈ l := by
  intro l
  induction l with
  | nil => intro acc; simp
  | cons x xs ih =>
    intro acc
    rw [List.foldl_cons, ih]
    by_cases hx : x ∈ acc
    · simp only [if_pos hx, List.mem_cons]
      constructor
      · rintro (h | h)
        · exact Or.inl h
        · exact Or.inr (Or.inr h)
      · rintro (h | h | h)
        · exact Or.inl h
        · exact Or.inl (h ▸ hx)
        · exact Or.inr h
    · simp [if_neg hx, or_assoc]

lemma mem_dedupFirst (a : String) (l : List String) :
    a ∈ dedupFirst l ↔ a ∈ l := by
  simp [dedupFirst, mem_foldl_dedup]

end HelperLemmas

section MergeLemmas

lemma interleave_nil {β : Type} :
    ∀ (sched : List Nat), interleave ([] : List (List β)) sched = [] := by
  intro sched
  induction sched with
  | nil => rfl
  | cons i rest ih => simp [interleave, ih]

lemma interleave_mem {β : Type} (Q : β → Prop) :
    ∀ (sched : List Nat) (streams : List (List β)),
      (∀ l ∈ streams, ∀ x ∈ l, Q x) →
      ∀ x ∈ interleave streams sched, Q x := by
  intro sched
  induction sched with
  | nil =>
    intro streams _ x hx
    simp [interleave] at hx
  | cons i rest ih =>
    intro streams hall x hx
    rcases hsi : streams[i]? with _ | li
    · rw [show interleave streams (i :: rest) = interleave streams rest by
        simp [interleave, hsi]] at hx
      exact ih streams hall x hx
    · rcases li with _ | ⟨y, ys⟩
      · rw [show interleave streams (i :: rest) = interleave streams rest by
          simp [interleave, hsi]] at hx
        exact ih streams hall x hx
      · rw [show interleave streams (i :: rest) =
            y :: interleave (streams.set i ys) rest by
          simp [interleave, hsi]] at hx
        have hmem : (y :: ys) ∈ streams := List.getElem?_mem hsi
        rcases List.mem_cons.mp hx with rfl | hx2
        · exact hall _ hmem x (List.mem_cons_self _ _)
        · refine ih (streams.set i ys) ?_ x hx2
          intro l hl z hz
          rcases List.mem_or_eq_of_mem_set hl with h1 | rfl
          · exact hall l h1 z hz
          · exact hall _ hmem z (List.mem_cons_of_mem _ hz)

lemma interleave_filter {β : Type} (p : β → Bool) :
    ∀ (sched : List Nat) (streams : List (List β)) (j : Nat) (tj : List β),
      streams[j]? = some tj →
      (∀ i li, i ≠ j → streams[i]? = some li → ∀ x ∈ li, p x = false) →
      (∀ x ∈ tj, p x = true) →
      drains streams sched →
      (interleave streams sched).filter p = tj := by
  intro sched
  induction sched with
  | nil =>
    intro streams j tj hj _ _ hdr
    have htj : tj = [] := hdr tj (List.getElem?_mem hj)
    subst htj
    rfl
  | cons i rest ih =>
    intro streams j tj hj hoth htj hdr
    rcases hsi : streams[i]? with _ | li
    · rw [show interleave streams (i :: rest) = interleave streams rest by
        simp [interleave, hsi]]
      refine ih streams j tj hj hoth htj ?_
      intro l hl
      refine hdr l ?_
      rw [show runSched streams (i :: rest) = runSched streams rest by
        simp [runSched, hsi]]
      exact hl
    · rcases li with _ | ⟨x, xs⟩
      · rw [show interleave streams (i :: rest) = interleave streams rest by
          simp [interleave, hsi]]
        refine ih streams j tj hj hoth htj ?_
        intro l hl
        refine hdr l ?_
        rw [show runSched streams (i :: rest) = runSched streams rest by
          simp [runSched, hsi]]
        exact hl
      · obtain ⟨hilt, -⟩ := List.getElem?_eq_some_iff.mp hsi
        have hdr2 : drains (streams.set i xs) rest := by
          intro l hl
          refine hdr l ?_
          rw [show runSched streams (i :: rest) = runSched (streams.set i xs) rest by
            simp [runSched, hsi]]
          exact hl
        rw [show interleave streams (i :: rest) =
            x :: interleave (streams.set i xs) rest by
          simp [interleave, hsi]]
        by_cases hij : i = j
        · subst hij
          rw [hj] at hsi
          have htjeq : tj = x :: xs := Option.some_inj.mp hsi
          subst htjeq
          have hpx : p x = true := htj x (List.mem_cons_self _ _)
          rw [List.filter_cons, if_pos hpx]
          congr 1
          refine ih (streams.set i xs) i xs ?_ ?_ ?_ hdr2
          · exact List.getElem?_set_self hilt
          · intro i2 li2 hne hget
            rw [List.getElem?_set_ne (fun h => hne h.symm)] at hget
            exact hoth i2 li2 hne hget
          · intro z hz
            exact htj z (List.mem_cons_of_mem _ hz)
        · have hpx : p x = false :=
            hoth i (x :: xs) hij hsi x (List.mem_cons_self _ _)
          rw [List.filter_cons, if_neg (by simp [hpx])]
          refine ih (streams.set i xs) j tj ?_ ?_ htj hdr2
          · rw [List.getElem?_set_ne hij]
            exact hj
          · intro i2 li2 hne hget
            by_cases hi2 : i2 = i
            · subst hi2
              rw [List.getElem?_set_self hilt] at hget
              have hxs : li2 = xs := Option.some_inj.mp hget.symm
              subst hxs
              intro z hz
              exact hoth i2 (x :: li2) hij hsi z (List.mem_cons_of_mem _ hz)
            · rw [List.getElem?_set_ne (fun h => hi2 h.symm)] at hget
              exact hoth i2 li2 hne hget

end MergeLemmas

section StreamLemmas

lemma runner_frames (fw comp now : String) (res : ProduceResult)
    (stop : StopSignal)
    (h : ∀ e ∈ produceEvents res, e.framework = fw) :
    ∀ e ∈ execute_framework_with_error_handling fw comp res stop now,
      e.framework = fw := by
  intro e he
  cases stop with
  | none =>
    cases res with
    | ends evs =>
      exact h e he
    | fails evs fault =>
      simp only [execute_framework_with_error_handling] at he
      rcases List.mem_append.mp he with h1 | h1
      · exact h e h1
      · rw [List.mem_singleton.mp h1]
        cases fault <;> rfl
  | checkedAt k =>
    simp only [execute_framework_with_error_handling] at he
    by_cases hk : k < (produceEvents res).length
    · rw [if_pos hk] at he
      rcases List.mem_append.mp he with h1 | h1
      · exact h e (List.take_subset _ _ h1)
      · rw [List.mem_singleton.mp h1]; rfl
    · rw [if_neg hk] at he
      cases res with
      | ends evs => exact h e he
      | fails evs fault =>
        rcases List.mem_append.mp he with h1 | h1
        · exact h e h1
        · rw [List.mem_singleton.mp h1]
          cases fault <;> rfl
  | cancelledAt k =>
    simp only [execute_framework_with_error_handling] at he
    rcases List.mem_append.mp he with h1 | h1
    · exact h e (List.take_subset _ _ h1)
    · rw [List.mem_singleton.mp h1]; rfl

lemma runnerFeed_tags (r : RunnerSpec) :
    ∀ q ∈ runnerFeed r, q.1 = r.framework := by
  intro q hq
  rw [runnerFeed, feed_queue] at hq
  rcases List.mem_append.mp hq with h1 | h1
  · obtain ⟨e, -, rfl⟩ := List.mem_map.mp h1
    rfl
  · rw [List.mem_singleton.mp h1]

lemma runnerFeed_wellTagged (r : RunnerSpec)
    (h : ∀ e ∈ produceEvents r.res, e.framework = r.framework) :
    ∀ q ∈ runnerFeed r, ∀ e, q.2 = some e → e.framework = q.1 := by
  intro q hq e hqe
  rw [runnerFeed, feed_queue] at hq
  rcases List.mem_append.mp hq with h1 | h1
  · obtain ⟨e2, he2, rfl⟩ := List.mem_map.mp h1
    have : e2 = e := Option.some_inj.mp hqe
    subst this
    exact runner_frames r.framework r.component r.now r.res r.stop h e2 he2
  · rw [List.mem_singleton.mp h1] at hqe
    exact absurd hqe (by simp)

lemma consume_filter (f0 : String) :
    ∀ (items : List (String × Option PluginEvent)),
      (∀ q ∈ items, ∀ e, q.2 = some e → e.framework = q.1) →
      (consumeQueue items).filter (fun u => u.data.framework == f0) =
        consumeQueue (items.filter (fun q => q.1 == f0)) := by
  intro items
  induction items with
  | nil => intro _; rfl
  | cons q rest ih =>
    intro h
    have hrest : ∀ q2 ∈ rest, ∀ e, q2.2 = some e → e.framework = q2.1 :=
      fun q2 hq2 => h q2 (List.mem_cons_of_mem _ hq2)
    obtain ⟨tag, oe⟩ := q
    rcases oe with _ | e
    · rw [show consumeQueue ((tag, Option.none) :: rest) = consumeQueue rest by
        simp [consumeQueue]]
      rw [ih hrest]
      by_cases ht : tag == f0
      · rw [List.filter_cons, if_pos (by simpa using ht)]
        simp [consumeQueue]
      · rw [List.filter_cons, if_neg (by simpa using ht)]
    · have hframe : e.framework = tag :=
        h (tag, some e) (List.mem_cons_self _ _) e rfl
      rw [show consumeQueue ((tag, some e) :: rest) =
          map_plugin_event_to_ui_event e :: consumeQueue rest by
        simp [consumeQueue]]
      by_cases ht : (tag == f0) = true
      · rw [List.filter_cons, if_pos (by
            simp [map_plugin_event_to_ui_event, hframe, ht]),
          List.filter_cons, if_pos (by simpa using ht)]
        rw [show consumeQueue ((tag, some e) :: rest.filter (fun q => q.1 == f0)) =
            map_plugin_event_to_ui_event e ::
              consumeQueue (rest.filter (fun q => q.1 == f0)) by
          simp [consumeQueue]]
        rw [ih hrest]
      · rw [List.filter_cons, if_neg (by
            simp only [map_plugin_event_to_ui_event, hframe]
            simpa using ht),
          List.filter_cons, if_neg (by simpa using ht)]
        exact ih hrest

lemma consumeQueue_tagged (fw : String) :
    ∀ (l : List PluginEvent),
      consumeQueue (l.map (fun e => (fw, some e)) ++ [(fw, Option.none)]) =
        l.map map_plugin_event_to_ui_event := by
  intro l
  induction l with
  | nil => rfl
  | cons e rest ih =>
    rw [List.map_cons, List.cons_append, List.map_cons]
    rw [show consumeQueue ((fw, some e) ::
          (rest.map (fun e => (fw, some e)) ++ [(fw, Option.none)])) =
        map_plugin_event_to_ui_event e ::
          consumeQueue (rest.map (fun e => (fw, some e)) ++ [(fw, Option.none)])
      by simp [consumeQueue]]
    rw [ih]

lemma consumeQueue_runnerFeed (r : RunnerSpec) :
    consumeQueue (runnerFeed r) =
      (execute_framework_with_error_handling r.framework r.component r.res
        r.stop r.now).map map_plugin_event_to_ui_event := by
  rw [runnerFeed, feed_queue]
  exact consumeQueue_tagged r.framework _

lemma nodup_getElem?_ne {γ : Type} {l : List γ} (h : l.Nodup) {i j : Nat}
    (hij : i ≠ j) {a b : γ} (ha : l[i]? = some a) (hb : l[j]? = some b) :
    a ≠ b := by
  obtain ⟨hilt, hai⟩ := List.getElem?_eq_some_iff.mp ha
  obtain ⟨hjlt, hbj⟩ := List.getElem?_eq_some_iff.mp hb
  intro hab
  apply hij
  exact (@List.Nodup.getElem_inj_iff γ l h i hilt j hjlt).mp
    (by rw [hai, hbj, hab])

lemma stream_eventsFor (rs : List RunnerSpec) (sched : List Nat) (j : Nat)
    (r : RunnerSpec)
    (hget : rs[j]? = some r)
    (hnd : (rs.map (fun q => q.framework)).Nodup)
    (hfr : ∀ q ∈ rs, ∀ e ∈ produceEvents q.res, e.framework = q.framework)
    (hdr : drains (rs.map runnerFeed) sched) :
    eventsFor r.framework (stream_from_multiple_tasks rs sched) =
      (execute_framework_with_error_handling r.framework r.component r.res
        r.stop r.now).map map_plugin_event_to_ui_event := by
  rw [eventsFor, stream_from_multiple_tasks]
  rw [consume_filter r.framework (interleave (rs.map runnerFeed) sched)
    (interleave_mem _ sched (rs.map runnerFeed) ?_)]
  · rw [interleave_filter (fun q => q.1 == r.framework) sched
      (rs.map runnerFeed) j (runnerFeed r) ?_ ?_ ?_ hdr]
    · exact consumeQueue_runnerFeed r
    · rw [List.getElem?_map, hget]
      rfl
    · intro i li hne hgi x hx
      rw [List.getElem?_map] at hgi
      rcases hri : rs[i]? with _ | ri
      · rw [hri] at hgi; exact absurd hgi (by simp)
      · rw [hri] at hgi
        have hli : li = runnerFeed ri := (Option.some_inj.mp hgi).symm
        subst hli
        have htag : x.1 = ri.framework := runnerFeed_tags ri x hx
        have hneq : ri.framework ≠ r.framework := by
          refine nodup_getElem?_ne hnd hne ?_ ?_
          · rw [List.getElem?_map, hri]; rfl
          · rw [List.getElem?_map, hget]; rfl
        show (x.1 == r.framework) = false
        rw [htag]
        exact beq_eq_false_iff_ne.mpr hneq
    · intro x hx
      show (x.1 == r.framework) = true
      rw [runnerFeed_tags r x hx]
      exact beq_self_eq_true _
  · intro l hl x hx
    obtain ⟨r2, hr2, rfl⟩ := List.mem_map.mp hl
    exact runnerFeed_wellTagged r2 (hfr r2 hr2) x hx

end StreamLemmas

lemma mem_setAdd_self (l : List String) (k : String) : k ∈ setAdd l k := by
  rw [setAdd]
  by_cases h : k ∈ l
  · rw [if_pos h]; exact h
  · rw [if_neg h]; exact List.mem_append.mpr (Or.inr (List.mem_singleton.mpr rfl))

lemma drop_append_le {β : Type} :
    ∀ (l1 l2 : List β) (n : Nat), n ≤ l1.length →
      (l1 ++ l2).drop n = l1.drop n ++ l2 := by
  intro l1
  induction l1 with
  | nil =>
    intro l2 n hn
    rw [Nat.le_zero.mp hn]
    rfl
  | cons x xs ih =>
    intro l2 n hn
    cases n with
    | zero => rfl
    | succ m =>
      rw [List.cons_append, List.drop_succ_cons, List.drop_succ_cons]
      exact ih l2 m (Nat.succ_le_succ_iff.mp hn)

/-- A concrete orchestrator state with four registered plugins: B running,
C completed, D stopped, A idle. Plugin objects are numbered with `Nat`. -/
def sampleState : OrchState Nat :=
  { plugins := [("A", 1), ("B", 2), ("C", 3), ("D", 4)],
    active_tasks := [("B", false), ("C", true)],
    stopped_frameworks := ["D"] }

/-- The freshly constructed orchestrator (orchestrator.py lines 17-20),
with `Nat` as the plugin object type. -/
def orchInit : OrchState Nat :=
  { plugins := [], active_tasks := [], stopped_frameworks := [] }

/-- C7 counterexample: registering the name A twice does not fail and does
not leave the registry unchanged — `register_plugin` is an unconditional
dict assignment (orchestrator.py line 29), so the second call silently
replaces the stored plugin object 1 with 2, contradicting the claim that a
duplicate registration fails with DuplicateUnit and leaves the registry
unchanged. -/
theorem C7_counterexample :
    register_plugin (register_plugin orchInit "A" 1) "A" 2
      = { plugins := [("A", 2)], active_tasks := [],
          stopped_frameworks := [] }
    ∧ dictGet (register_plugin (register_plugin orchInit "A" 1) "A" 2).plugins "A"
        ≠ dictGet (register_plugin orchInit "A" 1).plugins "A" := by
  exact ⟨rfl, by decide⟩

/-- C7 amended: registering a name that already exists never fails;
it silently replaces the stored plugin for that name, leaving the key set,
all other registry entries, the active tasks and the stopped-set
unchanged. -/
theorem C7_register_overwrites {α : Type} (s : OrchState α) (f : String)
    (p : α) (hmem : f ∈ dictKeys s.plugins) :
    dictKeys (register_plugin s f p).plugins = dictKeys s.plugins
    ∧ dictGet (register_plugin s f p).plugins f = some p
    ∧ (∀ g, g ≠ f →
        dictGet (register_plugin s f p).plugins g = dictGet s.plugins g)
    ∧ (register_plugin s f p).active_tasks = s.active_tasks
    ∧ (register_plugin s f p).stopped_frameworks = s.stopped_frameworks := by
  exact ⟨dictKeys_insert_mem s.plugins f p hmem,
    dictGet_insert_self s.plugins f p,
    fun g hg => dictGet_insert_ne s.plugins f g p hg,
    rfl, rfl⟩

/-- Witness for C7 amended at a concrete duplicate registration. -/
theorem C7_register_overwrites_witness :
    dictGet (register_plugin (register_plugin orchInit "A" 1) "A" 2).plugins "A"
      = some 2 :=
  (C7_register_overwrites (register_plugin orchInit "A" 1) "A" 2
    (by decide)).2.1

/-- C8: for every registered unit name, `get_framework_status` maps it to
exactly one of ready / running / completed / stopped, with the precedence
of orchestrator.py lines 253-263: membership in the stopped-set wins (even
when an active task exists); otherwise an unfinished active task means
running, a finished one completed; otherwise ready. -/
theorem C8_status_precedence {α : Type} (s : OrchState α) (f : String)
    (hmem : f ∈ dictKeys s.plugins) :
    dictGet (get_framework_status s) f = some (statusOf s f)
    ∧ (statusOf s f = "stopped" ↔ f ∈ s.stopped_frameworks)
    ∧ (statusOf s f = "running" ↔
        f ∉ s.stopped_frameworks ∧ dictGet s.active_tasks f = some false)
    ∧ (statusOf s f = "completed" ↔
        f ∉ s.stopped_frameworks ∧ dictGet s.active_tasks f = some true)
    ∧ (statusOf s f = "ready" ↔
        f ∉ s.stopped_frameworks ∧ dictGet s.active_tasks f = none)
    ∧ (statusOf s f = "ready" ∨ statusOf s f = "running" ∨
        statusOf s f = "completed" ∨ statusOf s f = "stopped") := by
  have hmain : dictGet (get_framework_status s) f = some (statusOf s f) := by
    rw [dictGet_status, if_pos hmem]
  refine ⟨hmain, ?_, ?_, ?_, ?_, ?_⟩ <;>
  · rw [statusOf]
    by_cases hst : f ∈ s.stopped_frameworks
    · rcases hat : dictGet s.active_tasks f with _ | b
      · simp [hst, hat]
      · cases b <;> simp [hst, hat]
    · rcases hat : dictGet s.active_tasks f with _ | b
      · simp [hst, hat]
      · cases b <;> simp [hst, hat]

/-- Witness for C8 at the concrete state (unit B has an unfinished active
task and is not stopped, so its status is running). -/
theorem C8_status_precedence_witness :
    dictGet (get_framework_status sampleState) "B"
      = some (statusOf sampleState "B")
    ∧ (statusOf sampleState "B" = "running" ↔
        "B" ∉ sampleState.stopped_frameworks ∧
          dictGet sampleState.active_tasks "B" = some false) :=
  ⟨(C8_status_precedence sampleState "B" (by decide)).1,
   (C8_status_precedence sampleState "B" (by decide)).2.2.1⟩

/-- C9: `restart_framework` only removes the name from the stopped-set:
when the name is not stopped it is a no-op that does not fail, and in every
state it leaves the registry and the active tasks untouched and never
starts execution. -/
theorem C9_restart_only_removes {α : Type} (s : OrchState α) (f : String) :
    restart_framework s f
      = { s with stopped_frameworks := setRemove s.stopped_frameworks f }
    ∧ (f ∉ s.stopped_frameworks → restart_framework s f = s)
    ∧ (restart_framework s f).plugins = s.plugins
    ∧ (restart_framework s f).active_tasks = s.active_tasks := by
  have h1 : restart_framework s f
      = { s with stopped_frameworks := setRemove s.stopped_frameworks f } := by
    rw [restart_framework]
    by_cases h : f ∈ s.stopped_frameworks
    · rw [if_pos h]
    · rw [if_neg h, setRemove_of_not_mem _ _ h]
  refine ⟨h1, ?_, ?_, ?_⟩
  · intro h
    rw [restart_framework, if_neg h]
  · rw [h1]
  · rw [h1]

/-- Witness for C9: restarting the non-stopped unit A changes nothing. -/
theorem C9_restart_only_removes_witness :
    restart_framework sampleState "A" = sampleState :=
  (C9_restart_only_removes sampleState "A").2.1 (by decide)

/-- C10: the key set of `get_framework_status` is exactly the registered
names, before and after any `stop_framework` call; stopping a name always
puts it in the stopped-set, but an unregistered stopped name never appears
in the status mapping, while every registered name always does. -/
theorem C10_status_keys {α : Type} (s : OrchState α) (f : String) :
    dictKeys (get_framework_status s) = dictKeys s.plugins
    ∧ dictKeys (get_framework_status (stop_framework s f)) = dictKeys s.plugins
    ∧ f ∈ (stop_framework s f).stopped_frameworks
    ∧ (f ∉ dictKeys s.plugins →
        dictGet (get_framework_status (stop_framework s f)) f = none)
    ∧ (∀ g ∈ dictKeys s.plugins,
        ∃ v, dictGet (get_framework_status s) g = some v) := by
  refine ⟨dictKeys_status s, dictKeys_status (stop_framework s f), ?_, ?_, ?_⟩
  · exact mem_setAdd_self s.stopped_frameworks f
  · intro hn
    rw [dictGet_status]
    rw [if_neg (by exact hn)]
  · intro g hg
    exact ⟨statusOf s g, by rw [dictGet_status, if_pos hg]⟩

/-- Witness for C10: stopping the never-registered name Z leaves it out of
the status mapping even though it is in the stopped-set. -/
theorem C10_status_keys_witness :
    dictGet (get_framework_status (stop_framework sampleState "Z")) "Z" = none
    ∧ "Z" ∈ (stop_framework sampleState "Z").stopped_frameworks
    ∧ dictKeys (get_framework_status sampleState)
        = dictKeys sampleState.plugins :=
  ⟨(C10_status_keys sampleState "Z").2.2.2.1 (by decide),
   (C10_status_keys sampleState "Z").2.2.1,
   (C10_status_keys sampleState "Z").1⟩

/-- One-plugin registry used by concrete execute scenarios. -/
def regA : OrchState Nat :=
  { plugins := [("A", 1)], active_tasks := [], stopped_frameworks := [] }

/-- Plugin behaviour where every produce ends immediately with no event. -/
def constEnds : String → ProduceResult := fun _ => ProduceResult.ends []

/-- No stop request is issued. -/
def constNoStop : String → StopSignal := fun _ => StopSignal.none

/-- C4 counterexample: selecting the unregistered name B does not fail
`execute_workflow` with an InvalidSelection exception and does not yield
zero envelopes — the generator yields exactly one error UI event
(orchestrator.py lines 92-97), so the claim that no envelopes are yielded
is false at this input. -/
theorem C4_counterexample :
    execute_workflow_output regA ["B"] "t" constEnds constNoStop
        "full_workflow" [0]
      = [create_error_event "orchestrator" "Invalid frameworks: B" "t"]
    ∧ execute_workflow_output regA ["B"] "t" constEnds constNoStop
        "full_workflow" [0] ≠ [] := by
  have h1 : execute_workflow_output regA ["B"] "t" constEnds constNoStop
      "full_workflow" [0]
      = [create_error_event "orchestrator" "Invalid frameworks: B" "t"] := by
    rfl
  exact ⟨h1, by rw [h1]; exact List.cons_ne_nil _ _⟩

/-- C4 amended: when the selection references unregistered names,
`execute_workflow` does not raise; it yields exactly one error envelope
whose message lists the offending (deduplicated) names, then the stream
ends; no runner task is started and the active tasks are unchanged. -/
theorem C4_invalid_selection_stream {α : Type} (s : OrchState α)
    (selected : List String) (now comp : String)
    (behav : String → ProduceResult) (stops : String → StopSignal)
    (sched : List Nat)
    (hinv : invalid_frameworks s selected ≠ []) :
    execute_workflow_output s selected now behav stops comp sched
      = [create_error_event "orchestrator"
          ("Invalid frameworks: " ++
            String.intercalate ", " (invalid_frameworks s selected)) now]
    ∧ (execute_workflow_spawn s selected now).framework_tasks = []
    ∧ (execute_workflow_spawn s selected now).state.active_tasks
        = s.active_tasks
    ∧ ∀ f ∈ invalid_frameworks s selected,
        f ∈ selected ∧ f ∉ dictKeys s.plugins := by
  have hif : (invalid_frameworks s selected).isEmpty = false := by
    rw [List.isEmpty_eq_false]
    exact hinv
  refine ⟨?_, ?_, ?_, ?_⟩
  · simp only [execute_workflow_output, execute_workflow_spawn, hif,
      Bool.false_eq_true, if_false, stream_from_multiple_tasks,
      List.map_nil, interleave_nil, consumeQueue, List.filterMap_nil,
      List.append_nil]
  · simp only [execute_workflow_spawn, hif, Bool.false_eq_true, if_false]
  · simp only [execute_workflow_spawn, hif, Bool.false_eq_true, if_false]
  · intro f hf
    have hf2 : f ∈ selected.filter (fun g => g ∉ dictKeys s.plugins) :=
      (mem_dedupFirst f _).mp hf
    have hmf := List.mem_filter.mp hf2
    exact ⟨hmf.1, by simpa using hmf.2⟩

/-- Witness for C4 amended: a selection with a repeated unregistered name
and the message listing it once. -/
theorem C4_invalid_selection_stream_witness :
    execute_workflow_output regA ["B", "B"] "t" constEnds constNoStop
        "full_workflow" [0, 1]
      = [create_error_event "orchestrator"
          ("Invalid frameworks: " ++
            String.intercalate ", " (invalid_frameworks regA ["B", "B"]))
          "t"]
    ∧ (execute_workflow_spawn regA ["B", "B"] "t").framework_tasks = [] :=
  ⟨(C4_invalid_selection_stream regA ["B", "B"] "t" "full_workflow"
      constEnds constNoStop [0, 1] (by decide)).1,
   (C4_invalid_selection_stream regA ["B", "B"] "t" "full_workflow"
      constEnds constNoStop [0, 1] (by decide)).2.1⟩

/-- C5 counterexample: executing with zero selected units yields the empty
stream — not the single synthetic error envelope the claim requires. With
no selected frameworks validation passes vacuously, no task is created,
and the merge loop of `_stream_from_multiple_tasks` exits immediately
(orchestrator.py line 210), so nothing is ever yielded. -/
theorem C5_counterexample :
    execute_workflow_output regA [] "t" constEnds constNoStop
        "full_workflow" [0, 1] = []
    ∧ (execute_workflow_output regA [] "t" constEnds constNoStop
        "full_workflow" [0, 1]).length ≠ 1 := by
  exact ⟨rfl, by decide⟩

/-- C5 amended: executing with an empty selection yields an empty stream
(zero envelopes) and the stream ends immediately, for every state, plugin
behaviour and queue schedule. -/
theorem C5_empty_selection_empty_stream {α : Type} (s : OrchState α)
    (now comp : String) (behav : String → ProduceResult)
    (stops : String → StopSignal) (sched : List Nat) :
    execute_workflow_output s [] now behav stops comp sched = [] := by
  have hinv : invalid_frameworks s ([] : List String) = [] := rfl
  simp only [execute_workflow_output, execute_workflow_spawn, hinv,
    List.isEmpty_nil, if_true, List.filter_nil, List.map_nil,
    stream_from_multiple_tasks, interleave_nil, consumeQueue,
    List.filterMap_nil, List.append_nil]

/-- C6 counterexample: the duplicated selection [A, A] is not rejected:
validation passes (the set difference ignores duplicates,
orchestrator.py line 91), no error envelope is emitted, and one runner
task is created per occurrence — two units of work are started, so the
claim that duplicates fail with InvalidSelection before any unit starts is
false at this input. -/
theorem C6_counterexample :
    (execute_workflow_spawn regA ["A", "A"] "t").framework_tasks
      = ["A", "A"]
    ∧ (execute_workflow_spawn regA ["A", "A"] "t").emitted = [] := by
  exact ⟨rfl, rfl⟩

/-- C6 amended: when every selected name is registered, duplicates
included, `execute_workflow` starts one runner task per occurrence of each
name, in selection order, and emits no validation envelope. -/
theorem C6_duplicates_not_rejected {α : Type} (s : OrchState α)
    (selected : List String) (now : String)
    (hall : ∀ f ∈ selected, f ∈ dictKeys s.plugins) :
    (execute_workflow_spawn s selected now).framework_tasks = selected
    ∧ (execute_workflow_spawn s selected now).emitted = [] := by
  have hinv : invalid_frameworks s selected = [] := by
    rw [invalid_frameworks]
    rw [show selected.filter (fun f => f ∉ dictKeys s.plugins) = [] by
      rw [List.filter_eq_nil_iff]
      intro a ha
      simp [hall a ha]]
    rfl
  have hif : (invalid_frameworks s selected).isEmpty = true := by
    rw [hinv]; rfl
  have hstart : selected.filter (fun f => f ∈ dictKeys s.plugins)
      = selected := by
    rw [List.filter_eq_self]
    intro a ha
    simp [hall a ha]
  constructor
  · simp only [execute_workflow_spawn, hif, if_true]
    exact hstart
  · simp only [execute_workflow_spawn, hif, if_true]

/-- Witness for C6 amended: three occurrences of the registered unit A
start three runner tasks. -/
theorem C6_duplicates_not_rejected_witness :
    (execute_workflow_spawn regA ["A", "A", "A"] "t").framework_tasks
      = ["A", "A", "A"] :=
  (C6_duplicates_not_rejected regA ["A", "A", "A"] "t" (by decide)).1

/-- A concrete streaming envelope emitted by unit A. -/
def streamEventA : PluginEvent :=
  create_plugin_event "A" "streaming" "full_workflow" [("text", "hello")] "t0"

/-- C2 counterexample: a unit whose produce sequence ends after one
streaming envelope and no terminal event. The runner forwards exactly that
envelope and appends nothing (after normal exhaustion the loop of
orchestrator.py lines 134-145 simply returns), and the feeder enqueues
only the non-envelope `None` completion marker (line 198): no synthetic
error envelope is created, so the unit's envelope sequence ends without
any terminal envelope, contradicting the claim. -/
theorem C2_counterexample :
    execute_framework_with_error_handling "A" "full_workflow"
        (ProduceResult.ends [streamEventA]) StopSignal.none "t0"
      = [streamEventA]
    ∧ isTerminal streamEventA = false
    ∧ feed_queue "A" "full_workflow" (ProduceResult.ends [streamEventA])
        StopSignal.none "t0"
      = [("A", some streamEventA), ("A", Option.none)] := by
  exact ⟨rfl, rfl, rfl⟩

/-- C2 amended: when a unit's produce sequence ends normally, the runner
forwards it unchanged and synthesizes nothing; if the unit emitted no
terminal envelope, its stream simply ends without one, and the feeder
signals completion to the multiplexer with the non-envelope `None` marker
rather than a synthetic error envelope. -/
theorem C2_no_synthesized_terminal (fw comp now : String)
    (evs : List PluginEvent) (hnt : ∀ e ∈ evs, isTerminal e = false) :
    execute_framework_with_error_handling fw comp (ProduceResult.ends evs)
        StopSignal.none now = evs
    ∧ (∀ e ∈ execute_framework_with_error_handling fw comp
          (ProduceResult.ends evs) StopSignal.none now,
        isTerminal e = false)
    ∧ feed_queue fw comp (ProduceResult.ends evs) StopSignal.none now
        = evs.map (fun e => (fw, some e)) ++ [(fw, Option.none)] := by
  exact ⟨rfl, fun e he => hnt e he, rfl⟩

/-- Witness for C2 amended on a two-event non-terminated produce
sequence. -/
theorem C2_no_synthesized_terminal_witness :
    execute_framework_with_error_handling "A" "full_workflow"
        (ProduceResult.ends [streamEventA, streamEventA]) StopSignal.none
        "t0"
      = [streamEventA, streamEventA] :=
  (C2_no_synthesized_terminal "A" "full_workflow" "t0"
    [streamEventA, streamEventA] (by decide)).1

/-- One-unit stop scenario: the unit runs with produce outcome
`ends events`; after `cancelAt` of those events have been pulled and
forwarded into the shared queue, the caller invokes `stop_framework`,
which adds the name to the stopped-set, cancels the runner task and awaits
it (orchestrator.py lines 39-55), so the runner ends with the `stopped`
envelope of its CancelledError handler (lines 147-152). The queue
(line 183) delivers the per-unit envelopes in order; `deliveredBeforeStop`
of them had already been handed to the consumer when `stop` returned, the
rest are still buffered and get delivered afterwards (lines 210-224). -/
structure StopScenario where
  framework : String
  component : String
  events : List PluginEvent
  cancelAt : Nat
  deliveredBeforeStop : Nat
  now : String
deriving DecidableEq

/-- The full per-unit UI stream of a stop scenario. -/
def stopSessionOutput (sc : StopScenario) : List UIEvent :=
  (execute_framework_with_error_handling sc.framework sc.component
    (ProduceResult.ends sc.events) (StopSignal.cancelledAt sc.cancelAt)
    sc.now).map map_plugin_event_to_ui_event

/-- The suffix of the per-unit stream delivered to the consumer after
`stop` returned: everything the queue still buffered at that point. -/
def deliveredAfterStop (sc : StopScenario) : List UIEvent :=
  (stopSessionOutput sc).drop sc.deliveredBeforeStop

/-- The concrete C3 scenario: one streaming envelope forwarded into the
queue, then the stop cancels the runner; nothing had been delivered to the
consumer when stop returned. -/
def scC3 : StopScenario :=
  { framework := "A", component := "full_workflow",
    events := [streamEventA], cancelAt := 1, deliveredBeforeStop := 0,
    now := "t0" }

/-- C3 counterexample: in the concrete stop scenario a streaming envelope
of the stopped unit A is observed in the output stream after the stop call
returned (it was buffered in the multiplexer queue when stop was called),
contradicting the claim that no further streaming envelope for the name
appears after stop returns. -/
theorem C3_counterexample :
    deliveredAfterStop scC3
      = [map_plugin_event_to_ui_event streamEventA,
         map_plugin_event_to_ui_event
           (stoppedCancelledEvent "A" "full_workflow" "t0")]
    ∧ (deliveredAfterStop scC3).head?.map (fun u => u.data.event_type)
        = some "streaming" := by
  exact ⟨rfl, rfl⟩

/-- C3 amended: if `stop(name)` cancels unit `name` while it is running
and the unit had not yet emitted a terminal envelope, then the envelopes
delivered for `name` after `stop` returns are the still-buffered
pre-stop envelopes followed by exactly one terminal envelope, which has
kind `stopped` and is the last envelope for `name`; streaming envelopes
emitted before the stop took effect may thus still be delivered after
`stop` returns, but the only terminal envelope delivered is the stopped
one. -/
theorem C3_stop_semantics (sc : StopScenario)
    (hk : sc.cancelAt ≤ sc.events.length)
    (hd : sc.deliveredBeforeStop ≤ sc.cancelAt)
    (hnt : ∀ e ∈ sc.events.take sc.cancelAt, isTerminal e = false) :
    deliveredAfterStop sc
      = ((sc.events.take sc.cancelAt).drop sc.deliveredBeforeStop).map
          map_plugin_event_to_ui_event
        ++ [map_plugin_event_to_ui_event
            (stoppedCancelledEvent sc.framework sc.component sc.now)]
    ∧ (deliveredAfterStop sc).filter isTerminalUI
        = [map_plugin_event_to_ui_event
            (stoppedCancelledEvent sc.framework sc.component sc.now)]
    ∧ (stoppedCancelledEvent sc.framework sc.component sc.now).type
        = "stopped" := by
  have hout : stopSessionOutput sc
      = (sc.events.take sc.cancelAt).map map_plugin_event_to_ui_event
        ++ [map_plugin_event_to_ui_event
            (stoppedCancelledEvent sc.framework sc.component sc.now)] := by
    rw [stopSessionOutput]
    simp only [execute_framework_with_error_handling, produceEvents]
    rw [List.map_append]
    rfl
  have hlen : sc.deliveredBeforeStop ≤
      ((sc.events.take sc.cancelAt).map map_plugin_event_to_ui_event).length := by
    rw [List.length_map, List.length_take, Nat.min_eq_left hk]
    exact hd
  have h1 : deliveredAfterStop sc
      = ((sc.events.take sc.cancelAt).drop sc.deliveredBeforeStop).map
          map_plugin_event_to_ui_event
        ++ [map_plugin_event_to_ui_event
            (stoppedCancelledEvent sc.framework sc.component sc.now)] := by
    rw [deliveredAfterStop, hout, drop_append_le _ _ _ hlen, ← List.map_drop]
  refine ⟨h1, ?_, rfl⟩
  rw [h1, List.filter_append]
  have hfil0 : (((sc.events.take sc.cancelAt).drop
        sc.deliveredBeforeStop).map map_plugin_event_to_ui_event).filter
      isTerminalUI = [] := by
    rw [List.filter_eq_nil_iff]
    intro u hu
    obtain ⟨e, he, rfl⟩ := List.mem_map.mp hu
    have hnt2 : isTerminal e = false := hnt e (List.drop_subset _ _ he)
    show ¬(isTerminalUI (map_plugin_event_to_ui_event e) = true)
    rw [show isTerminalUI (map_plugin_event_to_ui_event e) = isTerminal e
      from rfl, hnt2]
    exact Bool.false_ne_true
  rw [hfil0, List.nil_append, List.filter_cons,
    if_pos (show isTerminalUI (map_plugin_event_to_ui_event
        (stoppedCancelledEvent sc.framework sc.component sc.now)) = true
      from rfl),
    List.filter_nil]

/-- The C3 witness scenario: the one pre-stop streaming envelope was
already delivered before stop returned; afterwards only the stopped
envelope remains. -/
def scC3w : StopScenario :=
  { framework := "A", component := "full_workflow",
    events := [streamEventA], cancelAt := 1, deliveredBeforeStop := 1,
    now := "t0" }

/-- Witness for C3 amended at the concrete scenario. -/
theorem C3_stop_semantics_witness :
    deliveredAfterStop scC3w
      = [map_plugin_event_to_ui_event
          (stoppedCancelledEvent "A" "full_workflow" "t0")]
    ∧ (deliveredAfterStop scC3w).filter isTerminalUI
      = [map_plugin_event_to_ui_event
          (stoppedCancelledEvent "A" "full_workflow" "t0")] := by
  have h := C3_stop_semantics scC3w (by decide) (by decide) (by decide)
  exact ⟨h.1, h.2.1⟩

/-- C1: a selected unit whose produce raises a fault has the fault caught
by the per-unit runner and converted into exactly one terminal error
envelope appended after the unit's own events — `error_type=plugin_error`
when the fault is a PluginError and `error_type=unexpected_error` for any
other exception — carrying the fault's message and the granularity; the
fault never escapes into the merged stream (the model is a total function
of the produce outcome), and every other selected unit still delivers its
own complete envelope stream. -/
theorem C1_fault_containment (rs : List RunnerSpec) (sched : List Nat)
    (j : Nat) (r : RunnerSpec) (evs : List PluginEvent)
    (fault : PluginFault)
    (hget : rs[j]? = some r)
    (hres : r.res = ProduceResult.fails evs fault)
    (hstop : r.stop = StopSignal.none)
    (hnd : (rs.map (fun q => q.framework)).Nodup)
    (hfr : ∀ q ∈ rs, ∀ e ∈ produceEvents q.res, e.framework = q.framework)
    (hdr : drains (rs.map runnerFeed) sched) :
    eventsFor r.framework (stream_from_multiple_tasks rs sched)
      = (evs ++ [faultEvent r.framework r.component fault r.now]).map
          map_plugin_event_to_ui_event
    ∧ (faultEvent r.framework r.component fault r.now).type = "error"
    ∧ dictGet (faultEvent r.framework r.component fault r.now).data "error"
        = some (faultMessage fault)
    ∧ (∀ fw2 msg c, fault = PluginFault.pluginError fw2 msg c →
        dictGet (faultEvent r.framework r.component fault r.now).data
          "error_type" = some "plugin_error")
    ∧ (∀ msg, fault = PluginFault.unexpected msg →
        dictGet (faultEvent r.framework r.component fault r.now).data
          "error_type" = some "unexpected_error")
    ∧ (faultEvent r.framework r.component fault r.now).component
        = r.component
    ∧ ∀ (j2 : Nat) (r2 : RunnerSpec), rs[j2]? = some r2 →
        r2.framework ≠ r.framework →
        eventsFor r2.framework (stream_from_multiple_tasks rs sched)
          = (execute_framework_with_error_handling r2.framework
              r2.component r2.res r2.stop r2.now).map
              map_plugin_event_to_ui_event := by
  have hmain := stream_eventsFor rs sched j r hget hnd hfr hdr
  rw [hres, hstop] at hmain
  refine ⟨hmain, ?_, ?_, ?_, ?_, ?_, ?_⟩
  · cases fault <;> rfl
  · cases fault <;> rfl
  · intro fw2 msg c heq
    subst heq
    rfl
  · intro msg heq
    subst heq
    rfl
  · cases fault <;> rfl
  · intro j2 r2 hget2 _
    exact stream_eventsFor rs sched j2 r2 hget2 hnd hfr hdr

/-- Unit A's terminal complete envelope. -/
def completeEventA : PluginEvent :=
  create_plugin_event "A" "complete" "full_workflow" [("result", "ok")] "t0"

/-- Unit B's streaming envelope, emitted just before its fault. -/
def streamEventB : PluginEvent :=
  create_plugin_event "B" "streaming" "full_workflow" [("text", "hi")] "t0"

/-- The runner for unit A: produce completes normally after its terminal
envelope. -/
def runnerA : RunnerSpec :=
  { framework := "A", component := "full_workflow",
    res := ProduceResult.ends [completeEventA],
    stop := StopSignal.none, now := "t0" }

/-- The runner for unit B: produce raises `PluginError("B", "boom")` after
one streaming envelope. -/
def runnerB : RunnerSpec :=
  { framework := "B", component := "full_workflow",
    res := ProduceResult.fails [streamEventB]
      (PluginFault.pluginError "B" "boom" Option.none),
    stop := StopSignal.none, now := "t0" }

/-- The two-unit faulting session. -/
def rsC1 : List RunnerSpec := [runnerA, runnerB]

/-- Witness for C1: in the concrete session, B's stream is its streaming
envelope followed by the converted plugin_error envelope, while A still
delivers its own complete envelope. -/
theorem C1_fault_containment_witness :
    eventsFor "B" (stream_from_multiple_tasks rsC1 [0, 0, 1, 1, 1])
      = [map_plugin_event_to_ui_event streamEventB,
         map_plugin_event_to_ui_event (faultEvent "B" "full_workflow"
           (PluginFault.pluginError "B" "boom" Option.none) "t0")]
    ∧ eventsFor "A" (stream_from_multiple_tasks rsC1 [0, 0, 1, 1, 1])
      = [map_plugin_event_to_ui_event completeEventA]
    ∧ dictGet (faultEvent "B" "full_workflow"
        (PluginFault.pluginError "B" "boom" Option.none) "t0").data
        "error_type" = some "plugin_error" := by
  have h := C1_fault_containment rsC1 [0, 0, 1, 1, 1] 1 runnerB
    [streamEventB] (PluginFault.pluginError "B" "boom" Option.none)
    rfl rfl rfl (by decide) (by decide) (by unfold drains; decide)
  exact ⟨h.1, h.2.2.2.2.2.2 0 runnerA rfl (by decide), h.2.2.2.1 "B" "boom"
    Option.none rfl⟩
